/-
Verification development for the carto-vl visualization expression engine.

We shallowly embed the CPU-side evaluation paths of the `Ramp` expression
(src/unnamed/part_002, ramp.js) and the `Animate` expression
(src/src/core/viz/expressions/animate.js) in Lean 4.

Modelling conventions:
* JavaScript numbers are modelled as rationals (`ℚ`); `Math.floor`,
  `Math.ceil` and `Math.round` are `jsFloor`, `jsCeil` and `jsRound`
  (JS `Math.round x = ⌊x + 1/2⌋`, rounding .5 towards +∞).
* Typed-array cells hold `Option ℚ`: `none` models a NaN cell (the value a
  Float32Array stores when fed `undefined`).  Reading a typed array out of
  bounds yields JS `undefined`, whose arithmetic image is NaN; the reader
  `readTex` therefore returns `Option ℚ` with `none` for out-of-range
  indices, and NaN propagates through `Option`.
* `Date.now()` is passed in explicitly as a rational timestamp.
* Exceptions are modelled with `Except String`.
-/
import Mathlib

set_option maxRecDepth 16384

namespace CartoVL

/-! ## JavaScript numeric primitives -/

/-- JS `Math.floor` on a (rational-modelled) number. -/
def jsFloor (q : ℚ) : ℤ := ⌊q⌋

/-- JS `Math.ceil`. -/
def jsCeil (q : ℚ) : ℤ := ⌈q⌉

/-- JS `Math.round`: rounds half-way cases towards positive infinity,
i.e. `Math.round x = Math.floor (x + 0.5)`. -/
def jsRound (q : ℚ) : ℤ := ⌊q + 1 / 2⌋

/-- Modelled from the spec: the `clamp` utility imported from `./utils`
(its source file is not part of the corpus).  C10's source sentence
describes it as restricting a value into `[lo, hi]`; the usual JS
implementation is `Math.min(Math.max(x, lo), hi)`.  Integer version,
used on table indices. -/
def clampI (x lo hi : ℤ) : ℤ := min (max x lo) hi

/-- Read a plain JS array of numbers (`palette.floats`): out-of-range
access yields `undefined`, modelled as `none`. -/
def readNum (l : List ℚ) (i : ℤ) : Option ℚ :=
  if i < 0 then none else l.get? i.toNat

/-- Read a typed array whose cells may themselves be NaN (`none`):
out-of-range access again yields `none`. -/
def readTex (l : List (Option ℚ)) (i : ℤ) : Option ℚ :=
  if i < 0 then none else (l.get? i.toNat).join

/-! ## Ramp evaluation (ramp.js lines 123-136, 308-327) -/

/-- `rampTypes` in ramp.js: the ramp's output type. -/
inductive RampType
  | color
  | number
deriving DecidableEq

/-- `inputTypes` in ramp.js. -/
inductive InputType
  | number
  | category
deriving DecidableEq

/-- The color object returned by `Ramp._getColorValue`: each channel is a
JS number that may be NaN (`none`), e.g. after an out-of-range table read. -/
structure RGBA where
  r : Option ℤ
  g : Option ℤ
  b : Option ℤ
  a : Option ℚ
deriving DecidableEq

/-- A CPU-side ramp evaluation result: a number (ramp.js `_getValue`, whose
`Math.round` output is an integer, NaN when a table read was out of range)
or a color object. -/
inductive RampValue
  | num (v : Option ℤ)
  | col (c : RGBA)
deriving DecidableEq

/-- `Ramp._getValue` (ramp.js lines 308-316): numeric table lookup with
clamped bracketing indices and linear interpolation, rounded at the end. -/
def Ramp.getValue (texturePixels : List (Option ℚ)) (numValues : ℤ) (m : ℚ) :
    Option ℤ :=
  let lowIndex := clampI (jsFloor ((numValues : ℚ) * m)) 0 numValues
  let highIndex := clampI (jsCeil ((numValues : ℚ) * m)) 0 numValues
  let fract : ℚ := (numValues : ℚ) * m - (jsFloor ((numValues : ℚ) * m) : ℚ)
  match readTex texturePixels lowIndex, readTex texturePixels highIndex with
  | some low, some high => some (jsRound (fract * high + (1 - fract) * low))
  | _, _ => none

/-- `Ramp._getColorValue` (ramp.js lines 318-327): color table lookup at
index `round(m * 255)`, with no clamping; each channel is read from the
flat RGBA byte table at `index * 4 + k`. -/
def Ramp.getColorValue (texturePixels : List (Option ℚ)) (m : ℚ) : RGBA :=
  let index := jsRound (m * 255)
  { r := (readTex texturePixels (index * 4 + 0)).map jsRound
    g := (readTex texturePixels (index * 4 + 1)).map jsRound
    b := (readTex texturePixels (index * 4 + 2)).map jsRound
    a := (readTex texturePixels (index * 4 + 3)).map
      (fun v => ((jsRound v : ℚ) / 255)) }

/-- `Ramp.eval` (ramp.js lines 123-136), taken after `_calcPaletteValues`
and `_computeTextureIfNeeded` have produced the lookup table
`texturePixels`: computes the normalized position
`m = (input - minKey) / (maxKey - minKey)` and dispatches on the ramp's
output type. -/
def Ramp.evalWithTable (ty : RampType) (minKey maxKey : ℚ)
    (texturePixels : List (Option ℚ)) (input : ℚ) : RampValue :=
  let numValues : ℤ := (texturePixels.length : ℤ) - 1
  let m : ℚ := (input - minKey) / (maxKey - minKey)
  match ty with
  | .number => .num (Ramp.getValue texturePixels numValues m)
  | .color => .col (Ramp.getColorValue texturePixels m)

/-- `Ramp._computeNumericRampTexture` (ramp.js lines 445-457): builds the
256-entry numeric table by linear interpolation between the bracketing
palette floats.  An out-of-range palette read (possible only for an empty
`floats` array) stores NaN (`none`) in the Float32Array cell. -/
def Ramp.computeNumericRampTexture (floats : List ℚ) : List (Option ℚ) :=
  (List.range 256).map (fun (i : ℕ) =>
    let pos : ℚ := (i : ℚ) / 255 * ((floats.length : ℚ) - 1)
    let m : ℚ := pos - (jsFloor pos : ℚ)
    match readNum floats (jsFloor pos), readNum floats (jsCeil pos) with
    | some vA, some vB => some ((1 - m) * vA + m * vB)
    | _, _ => none)

/-! ## Spec-side lookup formulas (for the refinement claim C1)

These two definitions follow the words of the specification, not the
source: "the color variant reads the table at `round(m * 255)`
(nearest-neighbor — deliberately not interpolated at evaluation time)",
"the numeric variant performs an additional linear interpolation between
the two bracketing table cells", the bracketing position being
`m * (tableLength - 1)`.  Note the absence of any index clamping here. -/

/-- Spec-side numeric lookup: linear interpolation between the two table
cells bracketing `m * (tableLength - 1)`, result rounded. -/
def specNumericLookup (texturePixels : List (Option ℚ)) (m : ℚ) : Option ℤ :=
  let pos : ℚ := m * ((texturePixels.length : ℚ) - 1)
  let fract : ℚ := pos - (jsFloor pos : ℚ)
  match readTex texturePixels (jsFloor pos), readTex texturePixels (jsCeil pos) with
  | some low, some high => some (jsRound (fract * high + (1 - fract) * low))
  | _, _ => none

/-- Spec-side color lookup: nearest-neighbor read at index `round(m * 255)`
with no interpolation at evaluation time. -/
def specColorLookup (texturePixels : List (Option ℚ)) (m : ℚ) : RGBA :=
  let index := jsRound (m * 255)
  { r := (readTex texturePixels (index * 4 + 0)).map jsRound
    g := (readTex texturePixels (index * 4 + 1)).map jsRound
    b := (readTex texturePixels (index * 4 + 2)).map jsRound
    a := (readTex texturePixels (index * 4 + 3)).map
      (fun v => ((jsRound v : ℚ) / 255)) }

/-! ## Lookup-table cache (`Ramp._computeTextureIfNeeded`, ramp.js 398-414) -/

/-- The mutable per-node fields that `_computeTextureIfNeeded` reads and
writes: the cached table, the `_texCategories` stamp and `maxKey`. -/
structure RampTexState where
  cachedTexturePixels : Option (List (Option ℚ))
  texCategories : Option ℤ
  maxKey : ℚ
deriving DecidableEq

/-- `Ramp._computeTextureIfNeeded` (ramp.js lines 398-414) as a state
transition.  `paletteAnimated` is `this.palette.isAnimated()`,
`numCategories` is `this.input.numCategories`, `inputIsCategory` tells
whether `this.input.type === 'category'`, and `build` abstracts the
type dispatch to `_computeColorRampTexture` / `_computeNumericRampTexture`
(it receives the `maxKey` current at build time, which those builders read
through `this`).  Returns the table together with the updated state.
Note the guard: the cache is reused whenever a table exists and the
palette is not animated; `_texCategories` is assigned but never compared. -/
def Ramp.computeTextureIfNeeded (paletteAnimated : Bool)
    (numCategories : ℤ) (inputIsCategory : Bool)
    (build : ℚ → List (Option ℚ)) (st : RampTexState) :
    List (Option ℚ) × RampTexState :=
  match st.cachedTexturePixels, paletteAnimated with
  | some px, false => (px, st)
  | _, _ =>
    let maxKey := if inputIsCategory then ((numCategories : ℚ) - 1) else st.maxKey
    let px := build maxKey
    (px, { cachedTexturePixels := some px
           texCategories := some numCategories
           maxKey := maxKey })

/-! ## Metadata binding (`Ramp._bindMetadata`, ramp.js 329-348) -/

/-- A fragment of the expression AST relevant to ramp-input binding:
a bare property reference, a `Linear` normalization node, or any other
input expression; each node records the metadata it was last bound to
(`none` before binding). -/
inductive VizExpr
  | prop (ty : InputType) (meta : Option ℕ)
  | linear (inner : VizExpr) (meta : Option ℕ)
  | otherInput (ty : InputType) (meta : Option ℕ)
deriving DecidableEq

/-- The expression's output type: a `Linear` node always outputs a
normalized number. -/
def VizExpr.exprType : VizExpr → InputType
  | .prop ty _ => ty
  | .linear _ _ => .number
  | .otherInput ty _ => ty

/-- `input.isA(Property)`. -/
def VizExpr.isProp : VizExpr → Bool
  | .prop _ _ => true
  | _ => false

/-- `_bindMetadata(metadata)` on an input expression: records the metadata
on the node and (for `Linear`) on its child. -/
def VizExpr.bindMeta (m : ℕ) : VizExpr → VizExpr
  | .prop ty _ => .prop ty (some m)
  | .linear inner _ => .linear (inner.bindMeta m) (some m)
  | .otherInput ty _ => .otherInput ty (some m)

/-- A bare numeric property reference (the shape `_bindMetadata` wraps). -/
def VizExpr.isBareNumericProperty (e : VizExpr) : Bool :=
  e.isProp && decide (e.exprType = InputType.number)

/-- The input transformation of `Ramp._bindMetadata` (ramp.js lines
329-335): `super._bindMetadata(metadata)` binds the children (in
particular `this.input`); then, if the input is a bare `Property` of
numeric type, it is replaced by `new Linear(this.input)` which is itself
bound to the same metadata. -/
def Ramp.bindInputMetadata (metadata : ℕ) (input : VizExpr) : VizExpr :=
  let input := input.bindMeta metadata
  if input.isProp && decide (input.exprType = InputType.number) then
    (VizExpr.linear input none).bindMeta metadata
  else
    input

/-! ## Animate (animate.js) -/

/-- The fields of an `Animate` node: creation time `aTime`, end time
`bTime = aTime + duration`, and the raw progress `mix` stored by the last
`eval`/`_preDraw` call (`undefined`, i.e. `none`, before the first one). -/
structure AnimateState where
  aTime : ℚ
  bTime : ℚ
  mix : Option ℚ
deriving DecidableEq

/-- `Animate` constructor (animate.js lines 18-27): rejects negative
durations, records `aTime = Date.now()` (passed here as `t0`) and
`bTime = aTime + duration`. -/
def Animate.construct (t0 duration : ℚ) : Except String AnimateState :=
  if duration < 0 then
    .error "animate: duration must be greater than or equal to 0"
  else
    .ok { aTime := t0, bTime := t0 + duration, mix := none }

/-- `Animate.eval` (animate.js lines 28-32) at wall-clock time `t`:
stores the raw progress `mix = (t - aTime) / (bTime - aTime)` and returns
`Math.min(mix, 1)`.  Returns the value together with the updated state. -/
def Animate.eval (st : AnimateState) (t : ℚ) : ℚ × AnimateState :=
  let mix := (t - st.aTime) / (st.bTime - st.aTime)
  (min mix 1, { st with mix := some mix })

/-- `Animate.isAnimated` (animate.js lines 33-35):
`!this.mix || this.mix <= 1`.  `!mix` is true when `mix` is still
`undefined` (or exactly `0`, both JS-falsy). -/
def Animate.isAnimated (st : AnimateState) : Bool :=
  match st.mix with
  | none => true
  | some m => decide (m = 0) || decide (m ≤ 1)

/-! ## Legend extraction (ramp.js 242-306) -/

/-- `DEFAULT_OTHERS_NAME` (ramp.js line 13). -/
def DEFAULT_OTHERS_NAME : String := "Others"

/-- The options object passed to `getLegend`.  We carry both the key the
specification documents (`othersLabel`) and the key the implementation
actually reads (`defaultOthers`); a missing key is `none`. -/
structure LegendOptions where
  othersLabel : Option String
  defaultOthers : Option String
deriving DecidableEq

/-- JS `a || b` for an optional string `a`: the default wins when the
option is missing or the empty string (both falsy). -/
def jsOrString (s : Option String) (dflt : String) : String :=
  match s with
  | none => dflt
  | some v => if v = "" then dflt else v

/-- A category descriptor from `input.getCategories()`; `name` is `none`
when the category has no name (JS `undefined`/`null`). -/
structure CategoryInfo where
  catName : Option String
deriving DecidableEq

/-- A `{ name, values }` legend entry; `values = none` models JS `null`. -/
structure LegendEntry where
  name : String
  values : Option (List RampValue)
deriving DecidableEq

/-- `Ramp._getCategoryName` (ramp.js lines 300-306): a falsy name maps to
the fixed `"Others"` string. -/
def Ramp.getCategoryName (name : Option String) : String :=
  match name with
  | none => DEFAULT_OTHERS_NAME
  | some s => if s = "" then DEFAULT_OTHERS_NAME else s

/-- `Ramp._getRampValueByIndex` (ramp.js lines 273-298) for non-image
palettes, after `_calcPaletteValues` / `_computeTextureIfNeeded` have
produced `texturePixels`: evaluates the ramp at
`m = (index - minKey) / (maxKey - minKey)` and returns `null` (`none`)
when any color channel is NaN.  For numeric ramps the value is a plain
number, so the JS NaN check `Number.isNaN(color.r)` inspects `undefined`
fields and never fires. -/
def Ramp.getRampValueByIndex (ty : RampType) (minKey maxKey : ℚ)
    (texturePixels : List (Option ℚ)) (index : ℤ) : Option RampValue :=
  let numValues : ℤ := (texturePixels.length : ℤ) - 1
  let m : ℚ := ((index : ℚ) - minKey) / (maxKey - minKey)
  match ty with
  | .number => some (RampValue.num (Ramp.getValue texturePixels numValues m))
  | .color =>
    let c := Ramp.getColorValue texturePixels m
    if c.r = none || c.g = none || c.b = none || c.a = none then
      none
    else
      some (RampValue.col c)

/-- JS truthiness of a ramp value: `null`, the number `0` and NaN are
falsy; every color object is truthy. -/
def rampValueTruthy : Option RampValue → Bool
  | none => false
  | some (.num none) => false
  | some (.num (some k)) => decide (k ≠ 0)
  | some (.col _) => true

/-- The `values: value ? [value] : null` pattern of the legend builders. -/
def wrapLegendValue (v : Option RampValue) : Option (List RampValue) :=
  if rampValueTruthy v then v.map (fun x => [x]) else none

/-- `Ramp._getLegendCategoryValue` (ramp.js lines 257-271): builds one
legend entry.  When the input is a `Top` expression and the index equals
its `numBuckets`, the entry is the "others" entry and its name is
`options.defaultOthers || DEFAULT_OTHERS_NAME`; otherwise the name comes
from `_getCategoryName(category.name)`. -/
def Ramp.getLegendCategoryValue (inputIsTop : Bool) (numBuckets : ℤ)
    (ty : RampType) (minKey maxKey : ℚ) (texturePixels : List (Option ℚ))
    (options : LegendOptions) (category : CategoryInfo) (index : ℤ) :
    LegendEntry :=
  let value := Ramp.getRampValueByIndex ty minKey maxKey texturePixels index
  if inputIsTop && decide (numBuckets = index) then
    { name := jsOrString options.defaultOthers DEFAULT_OTHERS_NAME
      values := wrapLegendValue value }
  else
    { name := Ramp.getCategoryName category.catName
      values := wrapLegendValue value }

/-- `Ramp._getLeyendCategories` (ramp.js lines 242-246): maps every
category (with its index) through `_getLegendCategoryValue`, then filters
out the entries whose `values` is `null`. -/
def Ramp.getLeyendCategories (inputIsTop : Bool) (numBuckets : ℤ)
    (ty : RampType) (minKey maxKey : ℚ) (texturePixels : List (Option ℚ))
    (options : LegendOptions) (categories : List CategoryInfo) :
    List LegendEntry :=
  ((categories.enum).map (fun p =>
      Ramp.getLegendCategoryValue inputIsTop numBuckets ty minKey maxKey
        texturePixels options p.2 (p.1 : ℤ))).filter
    (fun legend => legend.values ≠ none)

/-! ## Palette value computation (`_calcPaletteValues`, ramp.js 618-630) -/

/-- `paletteTypes` in ramp.js. -/
inductive PaletteType
  | palette
  | colorArray
  | numberArray
  | image
deriving DecidableEq

/-- A palette argument, abstracted over the element type `α` of its
evaluated values (floats for number arrays, color objects for color
arrays).  `evalPalette` is the outcome of `palette.eval()`: `.error`
models a raised exception (the palette depends on per-feature
evaluation). -/
structure PaletteExpr (α : Type) where
  ptype : PaletteType
  evalPalette : Except String (List α)
  floats : Option (List α)
  colors : Option (List α)

/-- The message of the hard error raised by `_calcPaletteValues`. -/
def constantPaletteError : String :=
  "Palettes must be formed by constant expressions, they cannot depend on feature properties"

/-- `_calcPaletteValues` (ramp.js lines 618-630): for number-array
palettes stores `palette.eval()` into `palette.floats`, for color-array
palettes into `palette.colors`; any exception raised by the evaluation is
replaced by the constant-expression hard error.  Other palette types are
returned untouched. -/
def calcPaletteValues {α : Type} (palette : PaletteExpr α) :
    Except String (PaletteExpr α) :=
  if palette.ptype = PaletteType.numberArray then
    match palette.evalPalette with
    | .ok vs => .ok { palette with floats := some vs }
    | .error _ => .error constantPaletteError
  else if palette.ptype = PaletteType.colorArray then
    match palette.evalPalette with
    | .ok vs => .ok { palette with colors := some vs }
    | .error _ => .error constantPaletteError
  else
    .ok palette

/-- The palette-processing part of the `Ramp` constructor (ramp.js lines
103-111): `palette = _calcPaletteValues(palette)` (so a raising palette
aborts construction), then `minKey = 0`, `maxKey = 1` and the ramp type
is `number` exactly for number-array palettes. -/
def Ramp.construct {α : Type} (palette : PaletteExpr α) :
    Except String (RampType × ℚ × ℚ × PaletteExpr α) := do
  let palette ← calcPaletteValues palette
  .ok (if palette.ptype = PaletteType.numberArray then RampType.number
       else RampType.color, 0, 1, palette)

/-! ## Theorems -/

/-- C3, counterexample.  A ramp state with a cached table built for 3
categories, a non-animated palette, and an input whose category count has
changed to 5: `_computeTextureIfNeeded` returns the old table and leaves
the state untouched (no rebuild), although the claim demands a rebuild
when the category count has changed.  The freshly built table would have
been `[some 9] ≠ [some 1]`, and the stored category stamp still reads 3. -/
theorem computeTexture_stale_on_category_change :
    Ramp.computeTextureIfNeeded false 5 true (fun _ => [some 9])
        ⟨some [some 1], some 3, 2⟩ = ([some 1], ⟨some [some 1], some 3, 2⟩) ∧
    ([some (1 : ℚ)] ≠ [some (9 : ℚ)]) ∧ (some (3 : ℤ) ≠ some (5 : ℤ)) :=
  ⟨rfl, by decide, by decide⟩

/-- C3, amended: the cached lookup table is rebuilt if and only if no
cached table exists yet or the palette is marked animated; whenever a
cached table exists and the palette is not animated the previous table
object and the whole state are returned unchanged — in particular a
change of the input's category count alone never triggers a rebuild. -/
theorem computeTexture_cache_policy (animated : Bool) (numCategories : ℤ)
    (inputIsCategory : Bool) (build : ℚ → List (Option ℚ))
    (st : RampTexState) :
    (∀ px, st.cachedTexturePixels = some px → animated = false →
      Ramp.computeTextureIfNeeded animated numCategories inputIsCategory
        build st = (px, st)) ∧
    (st.cachedTexturePixels = none ∨ animated = true →
      Ramp.computeTextureIfNeeded animated numCategories inputIsCategory
          build st =
        (build (if inputIsCategory then ((numCategories : ℚ) - 1) else st.maxKey),
         { cachedTexturePixels :=
             some (build (if inputIsCategory then ((numCategories : ℚ) - 1)
                          else st.maxKey))
           texCategories := some numCategories
           maxKey := if inputIsCategory then ((numCategories : ℚ) - 1)
                     else st.maxKey })) := by
  obtain ⟨cache, stamp, mk⟩ := st
  constructor
  · rintro px hpx rfl
    cases cache with
    | none => cases hpx
    | some px0 =>
      obtain rfl : px0 = px := by injection hpx
      rfl
  · rintro (hcache | hanim)
    · obtain rfl : cache = none := hcache
      cases animated <;> rfl
    · subst hanim
      cases cache <;> rfl

/-- C3, witness for the amended theorem: with a cached table and a
non-animated palette the cache is reused; with an animated palette the
table is rebuilt. -/
theorem computeTexture_cache_policy_witness :
    ((⟨some [some 1], some 3, 2⟩ : RampTexState).cachedTexturePixels
        = some [some 1]) ∧
    Ramp.computeTextureIfNeeded false 5 true (fun _ => [some 9])
        ⟨some [some 1], some 3, 2⟩ = ([some 1], ⟨some [some 1], some 3, 2⟩) ∧
    Ramp.computeTextureIfNeeded true 5 true (fun _ => [some 9])
        ⟨some [some 1], some 3, 2⟩ =
      ([some 9], ⟨some [some 9], some 5, 4⟩) := by
  refine ⟨rfl, ?_, ?_⟩
  · exact (computeTexture_cache_policy false 5 true (fun _ => [some 9])
      ⟨some [some 1], some 3, 2⟩).1 [some 1] rfl rfl
  · have h := (computeTexture_cache_policy true 5 true (fun _ => [some 9])
      ⟨some [some 1], some 3, 2⟩).2 (Or.inr rfl)
    norm_num at h
    exact h

/-- C4: at metadata-binding time, a ramp input that is a bare numeric
property reference is replaced by a `Linear` node wrapping the (bound)
property reference, the `Linear` node itself being bound to the same
metadata; consequently, after binding the ramp's input is never a bare
numeric property reference. -/
theorem bindMetadata_wraps_numeric_property (metadata : ℕ) (input : VizExpr) :
    (input.isBareNumericProperty = true →
      Ramp.bindInputMetadata metadata input =
        VizExpr.linear (input.bindMeta metadata) (some metadata)) ∧
    (Ramp.bindInputMetadata metadata input).isBareNumericProperty = false := by
  cases input with
  | prop ty mo =>
    cases ty <;>
      simp [Ramp.bindInputMetadata, VizExpr.isBareNumericProperty,
        VizExpr.bindMeta, VizExpr.isProp, VizExpr.exprType]
  | linear inner mo =>
    simp [Ramp.bindInputMetadata, VizExpr.isBareNumericProperty,
      VizExpr.bindMeta, VizExpr.isProp, VizExpr.exprType]
  | otherInput ty mo =>
    cases ty <;>
      simp [Ramp.bindInputMetadata, VizExpr.isBareNumericProperty,
        VizExpr.bindMeta, VizExpr.isProp, VizExpr.exprType]

/-- C4, witness: a bare numeric property reference gets wrapped. -/
theorem bindMetadata_wraps_numeric_property_witness :
    (VizExpr.prop .number none).isBareNumericProperty = true ∧
    Ramp.bindInputMetadata 7 (VizExpr.prop .number none) =
      VizExpr.linear (VizExpr.prop .number (some 7)) (some 7) ∧
    (Ramp.bindInputMetadata 7 (VizExpr.prop .number none)).isBareNumericProperty
      = false := by
  refine ⟨rfl, ?_, (bindMetadata_wraps_numeric_property 7
    (VizExpr.prop .number none)).2⟩
  exact (bindMetadata_wraps_numeric_property 7 (VizExpr.prop .number none)).1 rfl

/-- C5: for an animate node created at time `t0` with duration `d > 0`,
`eval` at any wall-clock time `t ≥ t0` returns `min ((t - t0) / d) 1`; the
value lies in `[0, 1]`, is exactly `1` once the full duration has elapsed,
and is exactly `0` immediately at creation time. -/
theorem animate_eval_progress (t0 d t : ℚ) (st : AnimateState)
    (hd : 0 < d) (hctor : Animate.construct t0 d = .ok st) (ht : t0 ≤ t) :
    (Animate.eval st t).1 = min ((t - t0) / d) 1 ∧
    0 ≤ (Animate.eval st t).1 ∧
    (Animate.eval st t).1 ≤ 1 ∧
    (t0 + d ≤ t → (Animate.eval st t).1 = 1) ∧
    (Animate.eval st t0).1 = 0 := by
  have hst : st = { aTime := t0, bTime := t0 + d, mix := none } := by
    unfold Animate.construct at hctor
    rw [if_neg (not_lt.mpr hd.le)] at hctor
    exact (Except.ok.inj hctor).symm
  subst hst
  have hb : t0 + d - t0 = d := by ring
  refine ⟨by simp [Animate.eval, hb], ?_, ?_, ?_, ?_⟩
  · simp only [Animate.eval, hb]
    exact le_min (div_nonneg (sub_nonneg.mpr ht) hd.le) zero_le_one
  · simp only [Animate.eval, hb]
    exact min_le_right _ _
  · intro hdone
    simp only [Animate.eval, hb]
    rw [min_eq_right]
    exact (one_le_div hd).mpr (by linarith)
  · simp [Animate.eval, hb]

/-- C5, witness: duration 100, creation time 0; at creation the value is
0, well past the duration it is exactly 1, and it never exceeds 1. -/
theorem animate_eval_progress_witness :
    (0 : ℚ) < 100 ∧
    (Animate.eval ⟨0, 0 + 100, none⟩ 0).1 = 0 ∧
    (Animate.eval ⟨0, 0 + 100, none⟩ 250).1 = 1 ∧
    (Animate.eval ⟨0, 0 + 100, none⟩ 250).1 ≤ 1 := by
  have h := animate_eval_progress 0 100 250 ⟨0, 0 + 100, none⟩
    (by norm_num) rfl (by norm_num)
  exact ⟨by norm_num, h.2.2.2.2, h.2.2.2.1 (by norm_num), h.2.2.1⟩

/-- C9: after any `eval` call at wall-clock time `t`, `isAnimated` returns
`true` exactly while the raw progress `(t - t0) / d` is at most 1
(equivalently `t ≤ t0 + d`), and returns `false` once the animation has
run past its duration. -/
theorem animate_isAnimated_iff (t0 d t : ℚ) (st : AnimateState)
    (hd : 0 < d) (hctor : Animate.construct t0 d = .ok st) :
    (Animate.isAnimated (Animate.eval st t).2 = true ↔ t ≤ t0 + d) ∧
    (Animate.isAnimated (Animate.eval st t).2 = false ↔ t0 + d < t) := by
  have hst : st = { aTime := t0, bTime := t0 + d, mix := none } := by
    unfold Animate.construct at hctor
    rw [if_neg (not_lt.mpr hd.le)] at hctor
    exact (Except.ok.inj hctor).symm
  subst hst
  have hb : t0 + d - t0 = d := by ring
  have key : Animate.isAnimated (Animate.eval ⟨t0, t0 + d, none⟩ t).2 = true ↔
      t ≤ t0 + d := by
    simp only [Animate.eval, Animate.isAnimated, hb, Bool.or_eq_true,
      decide_eq_true_eq]
    constructor
    · rintro (h0 | h1)
      · rcases div_eq_zero_iff.mp h0 with h | h
        · linarith
        · exact absurd h hd.ne'
      · have := (div_le_one hd).mp h1
        linarith
    · intro hle
      right
      exact (div_le_one hd).mpr (by linarith)
  refine ⟨key, ?_⟩
  rw [← Bool.not_eq_true, key]
  exact not_le

/-- C9, witness: duration 100 starting at 0; still animating at time 100,
no longer animating at time 101. -/
theorem animate_isAnimated_iff_witness :
    (0 : ℚ) < 100 ∧
    Animate.isAnimated (Animate.eval ⟨0, 0 + 100, none⟩ 100).2 = true ∧
    Animate.isAnimated (Animate.eval ⟨0, 0 + 100, none⟩ 101).2 = false := by
  refine ⟨by norm_num, ?_, ?_⟩
  · exact (animate_isAnimated_iff 0 100 100 ⟨0, 0 + 100, none⟩
      (by norm_num) rfl).1.mpr (by norm_num)
  · exact (animate_isAnimated_iff 0 100 101 ⟨0, 0 + 100, none⟩
      (by norm_num) rfl).2.mpr (by norm_num)

/-- C6, counterexample.  A categorical ramp legend "others" entry (Top
input, index = numBuckets) built with `options.othersLabel = "Foo"`: the
label is still the fixed `"Others"` string, because the implementation
reads `options.defaultOthers`, not the spec's `othersLabel` key. -/
theorem legend_othersLabel_ignored :
    (⟨some "Foo", none⟩ : LegendOptions).othersLabel = some "Foo" ∧
    (Ramp.getLegendCategoryValue true 1 .number 0 1 [some 5]
        ⟨some "Foo", none⟩ ⟨some "A"⟩ 1).name = DEFAULT_OTHERS_NAME ∧
    DEFAULT_OTHERS_NAME ≠ "Foo" :=
  ⟨rfl, rfl, by decide⟩

/-- C6, amended: the "others" legend entry (Top input at index
`numBuckets`) is labelled with the fixed `"Others"` string unless the
caller supplies a non-empty override through the `defaultOthers` option
of `getLegend` (not `othersLabel` as the spec documents), in which case
the supplied string is used instead. -/
theorem legend_others_name_policy (numBuckets index : ℤ) (ty : RampType)
    (minKey maxKey : ℚ) (texturePixels : List (Option ℚ))
    (options : LegendOptions) (category : CategoryInfo)
    (hidx : numBuckets = index) :
    (∀ s, options.defaultOthers = some s → s ≠ "" →
      (Ramp.getLegendCategoryValue true numBuckets ty minKey maxKey
        texturePixels options category index).name = s) ∧
    (options.defaultOthers = none →
      (Ramp.getLegendCategoryValue true numBuckets ty minKey maxKey
        texturePixels options category index).name = DEFAULT_OTHERS_NAME) := by
  constructor
  · intro s hs hne
    simp [Ramp.getLegendCategoryValue, hidx, jsOrString, hs, hne]
  · intro hs
    simp [Ramp.getLegendCategoryValue, hidx, jsOrString, hs]

/-- C6, witness: `defaultOthers = "Custom"` overrides the label, and a
missing option falls back to `"Others"`. -/
theorem legend_others_name_policy_witness :
    ((1 : ℤ) = 1) ∧
    (Ramp.getLegendCategoryValue true 1 .number 0 1 [some 5]
        ⟨none, some "Custom"⟩ ⟨some "A"⟩ 1).name = "Custom" ∧
    (Ramp.getLegendCategoryValue true 1 .number 0 1 [some 5]
        ⟨none, none⟩ ⟨some "A"⟩ 1).name = DEFAULT_OTHERS_NAME := by
  refine ⟨rfl, ?_, ?_⟩
  · exact (legend_others_name_policy 1 1 .number 0 1 [some 5]
      ⟨none, some "Custom"⟩ ⟨some "A"⟩ rfl).1 "Custom" rfl (by decide)
  · exact (legend_others_name_policy 1 1 .number 0 1 [some 5]
      ⟨none, none⟩ ⟨some "A"⟩ rfl).2 rfl

/-- C7, counterexample.  A categorical color ramp with three categories
but `maxKey = 1`: category index 2 maps to `m = 2`, the color lookup
reads past the table and yields NaN channels, so its computed ramp value
is unrepresentable (`_getRampValueByIndex` gives `null`).  The sequence
returned by the legend builder does NOT report that entry with
`values = null`: it omits the entry altogether (2 entries remain of the 3
categories, and no returned entry carries `values = null`). -/
theorem legend_nan_entry_omitted_not_null :
    Ramp.getRampValueByIndex .color 0 1 [some 0, some 0, some 0, some 0] 2
      = none ∧
    Ramp.getLeyendCategories false 0 .color 0 1 [some 0, some 0, some 0, some 0]
        ⟨none, none⟩ [⟨some "A"⟩, ⟨some "B"⟩, ⟨some "C"⟩]
      = [⟨"A", some [RampValue.col ⟨some 0, some 0, some 0, some 0⟩]⟩] := by
  have hv0 : Ramp.getRampValueByIndex .color 0 1
      [some 0, some 0, some 0, some 0] ((0 : ℕ) : ℤ)
      = some (RampValue.col ⟨some 0, some 0, some 0, some 0⟩) := by
    have hm : ((((0 : ℕ) : ℤ) : ℚ) - 0) / (1 - 0) = 0 := by norm_num
    have hidx : jsRound ((0 : ℚ) * 255) = 0 := by norm_num [jsRound]
    simp only [Ramp.getRampValueByIndex, hm, Ramp.getColorValue, hidx]
    simp [readTex, jsRound]
    norm_num
  have hv1 : Ramp.getRampValueByIndex .color 0 1
      [some 0, some 0, some 0, some 0] ((1 : ℕ) : ℤ) = none := by
    have hm : ((((1 : ℕ) : ℤ) : ℚ) - 0) / (1 - 0) = 1 := by norm_num
    have hidx : jsRound ((1 : ℚ) * 255) = 255 := by norm_num [jsRound]
    simp only [Ramp.getRampValueByIndex, hm, Ramp.getColorValue, hidx]
    rfl
  have hv2 : Ramp.getRampValueByIndex .color 0 1
      [some 0, some 0, some 0, some 0] ((2 : ℕ) : ℤ) = none := by
    have hm : ((((2 : ℕ) : ℤ) : ℚ) - 0) / (1 - 0) = 2 := by norm_num
    have hidx : jsRound ((2 : ℚ) * 255) = 510 := by norm_num [jsRound]
    simp only [Ramp.getRampValueByIndex, hm, Ramp.getColorValue, hidx]
    rfl
  refine ⟨by exact_mod_cast hv2, ?_⟩
  simp only [Ramp.getLeyendCategories, List.enum, List.enumFrom, List.map,
    Ramp.getLegendCategoryValue, Bool.false_and, Bool.false_eq_true, if_false,
    hv0, hv1, hv2, wrapLegendValue, rampValueTruthy, Ramp.getCategoryName]
  simp [List.filter]

/-- C7, amended: a legend entry whose computed ramp value has a NaN color
channel is dropped from the sequence returned by the legend builder
(rather than being reported with `values = null` and rather than
throwing): every entry of the returned sequence has `values ≠ null`. -/
theorem legend_returned_values_never_null (inputIsTop : Bool)
    (numBuckets : ℤ) (ty : RampType) (minKey maxKey : ℚ)
    (texturePixels : List (Option ℚ)) (options : LegendOptions)
    (categories : List CategoryInfo) (e : LegendEntry)
    (he : e ∈ Ramp.getLeyendCategories inputIsTop numBuckets ty minKey maxKey
      texturePixels options categories) :
    e.values ≠ none := by
  have := List.of_mem_filter he
  simpa using this

/-- C7, witness for the amended theorem: the single entry of a concrete
one-category numeric legend is in the returned sequence and has non-null
values. -/
theorem legend_returned_values_never_null_witness :
    (⟨"A", some [RampValue.num (some 5)]⟩ : LegendEntry) ∈
      Ramp.getLeyendCategories false 0 .number 0 1 [some 5] ⟨none, none⟩
        [⟨some "A"⟩] ∧
    (⟨"A", some [RampValue.num (some 5)]⟩ : LegendEntry).values ≠ none := by
  have hv0 : Ramp.getRampValueByIndex .number 0 1 [some 5] ((0 : ℕ) : ℤ)
      = some (RampValue.num (some 5)) := by
    have hm : ((((0 : ℕ) : ℤ) : ℚ) - 0) / (1 - 0) = 0 := by norm_num
    simp only [Ramp.getRampValueByIndex, hm, Ramp.getValue]
    norm_num [clampI, jsFloor, readTex, jsRound]
  have hlist : Ramp.getLeyendCategories false 0 .number 0 1 [some 5]
      ⟨none, none⟩ [⟨some "A"⟩]
      = [⟨"A", some [RampValue.num (some 5)]⟩] := by
    simp only [Ramp.getLeyendCategories, List.enum, List.enumFrom, List.map,
      Ramp.getLegendCategoryValue, Bool.false_and, Bool.false_eq_true, if_false,
      hv0, wrapLegendValue, rampValueTruthy, Ramp.getCategoryName]
    simp [List.filter]
  have hmem : (⟨"A", some [RampValue.num (some 5)]⟩ : LegendEntry) ∈
      Ramp.getLeyendCategories false 0 .number 0 1 [some 5] ⟨none, none⟩
        [⟨some "A"⟩] := by
    rw [hlist]
    exact List.mem_singleton.mpr rfl
  exact ⟨hmem, legend_returned_values_never_null false 0 .number 0 1 [some 5]
    ⟨none, none⟩ [⟨some "A"⟩] _ hmem⟩

/-- C8: a palette of a value-carrying type (number-array or color-array)
whose own evaluation raises makes `_calcPaletteValues` fail with the hard
"constant expressions" error — it never yields a (partially computed)
palette — and the `Ramp` constructor, which runs `_calcPaletteValues`,
propagates the same hard error. -/
theorem palette_constant_expression_error {α : Type} (palette : PaletteExpr α)
    (e : String)
    (htype : palette.ptype = PaletteType.numberArray ∨
      palette.ptype = PaletteType.colorArray)
    (heval : palette.evalPalette = .error e) :
    calcPaletteValues palette = .error constantPaletteError ∧
    Ramp.construct palette = .error constantPaletteError := by
  have hcalc : calcPaletteValues palette = .error constantPaletteError := by
    rcases htype with h | h <;> simp [calcPaletteValues, h, heval]
  refine ⟨hcalc, ?_⟩
  simp only [Ramp.construct, hcalc]
  rfl

/-- C8, witness: a number-array palette whose evaluation raises. -/
theorem palette_constant_expression_error_witness :
    (⟨PaletteType.numberArray, .error "depends on feature", none, none⟩ :
        PaletteExpr ℚ).evalPalette = .error "depends on feature" ∧
    calcPaletteValues (⟨PaletteType.numberArray, .error "depends on feature",
        none, none⟩ : PaletteExpr ℚ) = .error constantPaletteError ∧
    Ramp.construct (⟨PaletteType.numberArray, .error "depends on feature",
        none, none⟩ : PaletteExpr ℚ) = .error constantPaletteError := by
  have h := palette_constant_expression_error
    (⟨PaletteType.numberArray, .error "depends on feature", none, none⟩ :
      PaletteExpr ℚ) "depends on feature" (Or.inl rfl) rfl
  exact ⟨rfl, h.1, h.2⟩

/-! ### Helper lemmas about the JS primitives -/

lemma clampI_of_le {x lo hi : ℤ} (h1 : lo ≤ x) (h2 : x ≤ hi) :
    clampI x lo hi = x := by
  rw [clampI, max_eq_left h1, min_eq_left h2]

lemma jsFloor_nonneg {x : ℚ} (h : 0 ≤ x) : 0 ≤ jsFloor x :=
  Int.le_floor.mpr (by exact_mod_cast h)

lemma jsFloor_le_int {x : ℚ} {n : ℤ} (h : x ≤ (n : ℚ)) : jsFloor x ≤ n := by
  have := Int.floor_le_floor h
  simpa [jsFloor] using this

lemma jsCeil_nonneg {x : ℚ} (h : 0 ≤ x) : 0 ≤ jsCeil x := by
  have := (Int.le_ceil x)
  have h2 : (0 : ℚ) ≤ (⌈x⌉ : ℚ) := le_trans h this
  exact_mod_cast h2

lemma jsCeil_le_int {x : ℚ} {n : ℤ} (h : x ≤ (n : ℚ)) : jsCeil x ≤ n :=
  Int.ceil_le.mpr h

lemma readTex_nil (i : ℤ) : readTex [] i = none := by
  simp [readTex]

/-- The CPU numeric lookup with clamped indices agrees with the spec-side
unclamped bracketing lookup whenever the normalized position lies in
`[0, 1]`. -/
lemma getValue_eq_specNumericLookup (texturePixels : List (Option ℚ)) (m : ℚ)
    (h0 : 0 ≤ m) (h1 : m ≤ 1) :
    Ramp.getValue texturePixels ((texturePixels.length : ℤ) - 1) m =
      specNumericLookup texturePixels m := by
  cases texturePixels with
  | nil =>
    simp [Ramp.getValue, specNumericLookup, readTex_nil]
  | cons a l =>
    have hlen : 1 ≤ (a :: l).length := by simp
    set N : ℤ := ((a :: l).length : ℤ) - 1 with hN
    have hN0 : 0 ≤ N := by
      have : (1 : ℤ) ≤ ((a :: l).length : ℤ) := by exact_mod_cast hlen
      omega
    have hx0 : 0 ≤ (N : ℚ) * m := mul_nonneg (by exact_mod_cast hN0) h0
    have hxN : (N : ℚ) * m ≤ (N : ℚ) := by
      have hNq : (0 : ℚ) ≤ (N : ℚ) := by exact_mod_cast hN0
      calc (N : ℚ) * m ≤ (N : ℚ) * 1 := mul_le_mul_of_nonneg_left h1 hNq
        _ = (N : ℚ) := mul_one _
    have hfl : clampI (jsFloor ((N : ℚ) * m)) 0 N = jsFloor ((N : ℚ) * m) :=
      clampI_of_le (jsFloor_nonneg hx0) (jsFloor_le_int hxN)
    have hcl : clampI (jsCeil ((N : ℚ) * m)) 0 N = jsCeil ((N : ℚ) * m) :=
      clampI_of_le (jsCeil_nonneg hx0) (jsCeil_le_int hxN)
    have hcast : ((a :: l).length : ℚ) - 1 = (N : ℚ) := by
      rw [hN]; push_cast; ring
    simp only [Ramp.getValue, specNumericLookup, hfl, hcl, hcast,
      mul_comm m (N : ℚ)]

/-- C1: CPU ramp evaluation computes the normalized position
`m = (input - minKey) / (maxKey - minKey)`; for a color ramp it reads the
lookup table at index `round(m * 255)` with no interpolation at
evaluation time, and for a numeric ramp (with `m` in `[0, 1]`) it
linearly interpolates between the two table cells bracketing
`m * (tableLength - 1)` — the source's index clamping is invisible there. -/
theorem ramp_eval_lookup_formulas (minKey maxKey input : ℚ)
    (texturePixels : List (Option ℚ))
    (h0 : 0 ≤ (input - minKey) / (maxKey - minKey))
    (h1 : (input - minKey) / (maxKey - minKey) ≤ 1) :
    Ramp.evalWithTable .number minKey maxKey texturePixels input =
      RampValue.num (specNumericLookup texturePixels
        ((input - minKey) / (maxKey - minKey))) ∧
    Ramp.evalWithTable .color minKey maxKey texturePixels input =
      RampValue.col (specColorLookup texturePixels
        ((input - minKey) / (maxKey - minKey))) := by
  refine ⟨?_, rfl⟩
  simp only [Ramp.evalWithTable]
  exact congrArg RampValue.num
    (getValue_eq_specNumericLookup texturePixels _ h0 h1)

/-- C1, witness: a concrete two-cell table at normalized position 1/2. -/
theorem ramp_eval_lookup_formulas_witness :
    (0 : ℚ) ≤ ((1/2 : ℚ) - 0) / (1 - 0) ∧ ((1/2 : ℚ) - 0) / (1 - 0) ≤ 1 ∧
    Ramp.evalWithTable .number 0 1 [some 3, some 4] (1/2) =
      RampValue.num (specNumericLookup [some 3, some 4]
        (((1/2 : ℚ) - 0) / (1 - 0))) ∧
    Ramp.evalWithTable .color 0 1 [some 3, some 4] (1/2) =
      RampValue.col (specColorLookup [some 3, some 4]
        (((1/2 : ℚ) - 0) / (1 - 0))) := by
  have h := ramp_eval_lookup_formulas 0 1 (1/2) [some 3, some 4]
    (by norm_num) (by norm_num)
  exact ⟨by norm_num, by norm_num, h.1, h.2⟩

/-! ### The numeric table at its bracket boundaries -/

lemma computeNumericRampTexture_length (floats : List ℚ) :
    (Ramp.computeNumericRampTexture floats).length = 256 := by
  rw [Ramp.computeNumericRampTexture, List.length_map, List.length_range]

/-- Table cell 0 holds exactly the palette's first float. -/
lemma computeNumericRampTexture_first (a : ℚ) (l : List ℚ) :
    readTex (Ramp.computeNumericRampTexture (a :: l)) 0 = some a := by
  have hget : (Ramp.computeNumericRampTexture (a :: l))[(0 : ℕ)]? =
      some (some a) := by
    rw [Ramp.computeNumericRampTexture, List.getElem?_map,
      List.getElem?_range (by norm_num)]
    simp [readNum, jsFloor, jsCeil]
  simp [readTex, hget]

/-- Table cell 255 holds exactly the palette's last float. -/
lemma computeNumericRampTexture_last (a : ℚ) (l : List ℚ) :
    readTex (Ramp.computeNumericRampTexture (a :: l)) 255 =
      some ((a :: l).getLast (List.cons_ne_nil a l)) := by
  have hpos : ((255 : ℕ) : ℚ) / 255 * (((a :: l).length : ℚ) - 1)
      = ((l.length : ℕ) : ℚ) := by
    push_cast [List.length_cons]
    ring_nf
  have hgetLast : (a :: l)[l.length]? = some ((a :: l).getLast
      (List.cons_ne_nil a l)) := by
    rw [List.getElem?_eq_getElem (by simp), List.getLast_eq_getElem]
    simp
  have hget : (Ramp.computeNumericRampTexture (a :: l))[(255 : ℕ)]? =
      some (some ((a :: l).getLast (List.cons_ne_nil a l))) := by
    rw [Ramp.computeNumericRampTexture, List.getElem?_map,
      List.getElem?_range (by norm_num)]
    simp only [Option.map_some', hpos]
    have hnn : ¬ ((l.length : ℤ) < 0) := not_lt.mpr (Int.natCast_nonneg _)
    simp [readNum, jsFloor, jsCeil, hgetLast, hnn]
  simp [readTex, hget]

/-- Numeric ramp evaluation at normalized input 0 rounds table cell 0. -/
lemma evalWithTable_numeric_zero (px : List (Option ℚ)) (v : ℚ)
    (hlen : px.length = 256) (hread : readTex px 0 = some v) :
    Ramp.evalWithTable .number 0 1 px 0 = RampValue.num (some (jsRound v)) := by
  have hN : ((px.length : ℤ) - 1) = 255 := by rw [hlen]; norm_num
  have hm : ((0 : ℚ) - 0) / (1 - 0) = 0 := by norm_num
  simp only [Ramp.evalWithTable, hN, hm, Ramp.getValue]
  norm_num [jsFloor, jsCeil, clampI, hread]

/-- Numeric ramp evaluation at normalized input 1 rounds table cell 255. -/
lemma evalWithTable_numeric_one (px : List (Option ℚ)) (v : ℚ)
    (hlen : px.length = 256) (hread : readTex px 255 = some v) :
    Ramp.evalWithTable .number 0 1 px 1 = RampValue.num (some (jsRound v)) := by
  have hN : ((px.length : ℤ) - 1) = 255 := by rw [hlen]; norm_num
  have hm : ((1 : ℚ) - 0) / (1 - 0) = 1 := by norm_num
  have hf : jsFloor ((255 : ℚ)) = 255 := by norm_num [jsFloor]
  have hc : jsCeil ((255 : ℚ)) = 255 := by norm_num [jsCeil]
  simp only [Ramp.evalWithTable, hN, hm, Ramp.getValue, mul_one,
    Int.cast_ofNat, hf, hc]
  norm_num [clampI, hread]

/-- C2, counterexample.  Numeric ramp over the palette `[1/2, 2]`: the
table's cell 0 is exactly `1/2` (no drift from table construction), yet
`eval` at the boundary `m = 0` returns the integer `1`, because
`_getValue` rounds (`Math.round`) its interpolated result — and `1 ≠ 1/2`,
so the palette's first value is not reproduced exactly. -/
theorem numeric_ramp_boundary_drift :
    readTex (Ramp.computeNumericRampTexture [1/2, 2]) 0 = some (1/2) ∧
    Ramp.evalWithTable .number 0 1
        (Ramp.computeNumericRampTexture [1/2, 2]) 0 = RampValue.num (some 1) ∧
    ((1 : ℚ) ≠ 1/2) := by
  have hfirst := computeNumericRampTexture_first (1/2) [2]
  have hround : jsRound (1/2 : ℚ) = 1 := by norm_num [jsRound]
  refine ⟨hfirst, ?_, by norm_num⟩
  have h := evalWithTable_numeric_zero (Ramp.computeNumericRampTexture [1/2, 2])
    (1/2) (computeNumericRampTexture_length _) hfirst
  rwa [hround] at h

/-- C2, amended: for every numeric ramp built from a non-empty numeric
palette, `eval` at the table-bracket boundaries `m = 0` and `m = 1`
returns the palette's first and last values rounded to the nearest
integer (`Math.round` in `_getValue`); the table itself carries the exact
endpoint values, so the values are reproduced exactly precisely when the
palette endpoints are integers. -/
theorem numeric_ramp_boundaries_rounded (a : ℚ) (l : List ℚ) :
    Ramp.evalWithTable .number 0 1
        (Ramp.computeNumericRampTexture (a :: l)) 0 =
      RampValue.num (some (jsRound a)) ∧
    Ramp.evalWithTable .number 0 1
        (Ramp.computeNumericRampTexture (a :: l)) 1 =
      RampValue.num (some (jsRound ((a :: l).getLast
        (List.cons_ne_nil a l)))) := by
  constructor
  · exact evalWithTable_numeric_zero _ a (computeNumericRampTexture_length _)
      (computeNumericRampTexture_first a l)
  · exact evalWithTable_numeric_one _ _ (computeNumericRampTexture_length _)
      (computeNumericRampTexture_last a l)

/-! ### Out-of-range lookups (C10) -/

/-- For a table whose cells are all actual numbers (no NaN cells, as in
any table built by `_computeColorRampTexture`), a read yields NaN exactly
for out-of-range indices. -/
lemma readTex_eq_none_iff (px : List (Option ℚ))
    (hcell : ∀ c ∈ px, c ≠ none) (i : ℤ) :
    readTex px i = none ↔ i < 0 ∨ (px.length : ℤ) ≤ i := by
  rw [readTex]
  by_cases hi : i < 0
  · simp [hi]
  · simp only [hi, if_false, false_or]
    push_neg at hi
    constructor
    · intro h
      cases hg : px.get? i.toNat with
      | none =>
        have := List.get?_eq_none.mp hg
        omega
      | some c =>
        cases c with
        | none => exact absurd (hcell none (List.get?_mem hg)) (by simp)
        | some v => rw [hg] at h; simp at h
    · intro h
      have hlen : px.length ≤ i.toNat := by omega
      rw [List.get?_eq_none.mpr hlen]
      rfl

/-- C10, counterexample.  The input `m = 1001/1000` lies outside `[0, 1]`,
yet the color lookup at `round(m * 255) = 255` is still inside the
256-entry (1024-cell) table: every channel is an actual number, not NaN —
refuting "for every m outside [0,1] the color variant reads past the
table and produces NaN channels". -/
theorem color_lookup_slightly_out_still_in_bounds :
    (1 : ℚ) < 1001/1000 ∧
    Ramp.getColorValue (List.replicate 1024 (some (7 : ℚ))) (1001/1000)
      = ⟨some 7, some 7, some 7, some (7/255)⟩ := by
  refine ⟨by norm_num, ?_⟩
  have hidx : jsRound ((1001/1000 : ℚ) * 255) = 255 := by norm_num [jsRound]
  have hr : readTex (List.replicate 1024 (some (7 : ℚ))) (255 * 4 + 0)
      = some 7 := by decide
  have hg : readTex (List.replicate 1024 (some (7 : ℚ))) (255 * 4 + 1)
      = some 7 := by decide
  have hb : readTex (List.replicate 1024 (some (7 : ℚ))) (255 * 4 + 2)
      = some 7 := by decide
  have ha : readTex (List.replicate 1024 (some (7 : ℚ))) (255 * 4 + 3)
      = some 7 := by decide
  have hj : jsRound (7 : ℚ) = 7 := by norm_num [jsRound]
  simp only [Ramp.getColorValue, hidx, hr, hg, hb, ha, Option.map_some', hj]
  norm_num

/-- C10, amended: the two lookup variants do treat out-of-range inputs
asymmetrically, but with two precisions forced by the code.  The numeric
variant clamps both bracketing indices into `[0, tableLength - 1]`, so
for `m < 0` (resp. `m > 1`) it returns the rounded value of table cell 0
(resp. of the last cell).  The color variant indexes at `round(m * 255)`
without clamping; on a NaN-free table it produces NaN channels exactly
when that rounded index falls outside `[0, 255]` — an `m` only slightly
outside `[0, 1]` still reads the boundary cell. -/
theorem ramp_out_of_range_asymmetry (pxN pxC : List (Option ℚ)) (m : ℚ)
    (hN : pxN ≠ []) (hlenC : pxC.length = 1024)
    (hcellC : ∀ c ∈ pxC, c ≠ none) :
    (m < 0 → Ramp.getValue pxN ((pxN.length : ℤ) - 1) m =
      (readTex pxN 0).map jsRound) ∧
    (1 < m → Ramp.getValue pxN ((pxN.length : ℤ) - 1) m =
      (readTex pxN ((pxN.length : ℤ) - 1)).map jsRound) ∧
    (((Ramp.getColorValue pxC m).r = none ∨ (Ramp.getColorValue pxC m).g = none ∨
      (Ramp.getColorValue pxC m).b = none ∨ (Ramp.getColorValue pxC m).a = none)
      ↔ (jsRound (m * 255) < 0 ∨ 255 < jsRound (m * 255))) := by
  have hNpos : 0 ≤ (pxN.length : ℤ) - 1 := by
    have : 0 < pxN.length := List.length_pos.mpr hN
    omega
  set n : ℤ := (pxN.length : ℤ) - 1 with hn
  have hlerp : ∀ f e : ℚ, f * e + (1 - f) * e = e := by intros; ring
  refine ⟨?_, ?_, ?_⟩
  · intro hm
    have hx : (n : ℚ) * m ≤ 0 :=
      mul_nonpos_iff.mpr (Or.inl ⟨by exact_mod_cast hNpos, hm.le⟩)
    have hflo : jsFloor ((n : ℚ) * m) ≤ 0 := jsFloor_le_int (by simpa using hx)
    have hclo : jsCeil ((n : ℚ) * m) ≤ 0 := jsCeil_le_int (by simpa using hx)
    have hlow : clampI (jsFloor ((n : ℚ) * m)) 0 n = 0 := by
      rw [clampI, max_eq_right hflo, min_eq_left hNpos]
    have hhigh : clampI (jsCeil ((n : ℚ) * m)) 0 n = 0 := by
      rw [clampI, max_eq_right hclo, min_eq_left hNpos]
    simp only [Ramp.getValue, hlow, hhigh]
    cases hread : readTex pxN 0 with
    | none => rfl
    | some e => simp [hlerp]
  · intro hm
    have hx : (n : ℚ) ≤ (n : ℚ) * m := by
      have hnq : (0 : ℚ) ≤ (n : ℚ) := by exact_mod_cast hNpos
      calc (n : ℚ) = (n : ℚ) * 1 := (mul_one _).symm
        _ ≤ (n : ℚ) * m := mul_le_mul_of_nonneg_left hm.le hnq
    have hflo : n ≤ jsFloor ((n : ℚ) * m) := Int.le_floor.mpr (by simpa using hx)
    have hclo : n ≤ jsCeil ((n : ℚ) * m) :=
      le_trans hflo (Int.floor_le_ceil _)
    have hlow : clampI (jsFloor ((n : ℚ) * m)) 0 n = n := by
      rw [clampI, max_eq_left (le_trans hNpos hflo), min_eq_right hflo]
    have hhigh : clampI (jsCeil ((n : ℚ) * m)) 0 n = n := by
      rw [clampI, max_eq_left (le_trans hNpos hclo), min_eq_right hclo]
    simp only [Ramp.getValue, hlow, hhigh]
    cases hread : readTex pxN n with
    | none => rfl
    | some e => simp [hlerp]
  · have hiff := readTex_eq_none_iff pxC hcellC
    simp only [Ramp.getColorValue, Option.map_eq_none', hiff, hlenC]
    omega

/-- C10, witness: a NaN-free 1024-cell table; `m = -1` hits the clamped
first cell on the numeric side and produces NaN channels on the color
side (index `round(-255) = -255`). -/
theorem ramp_out_of_range_asymmetry_witness :
    ((-1 : ℚ) < 0 ∧ (List.replicate 1024 (some (7 : ℚ))).length = 1024) ∧
    Ramp.getValue [some 3, some 4] (([some (3:ℚ), some 4].length : ℤ) - 1) (-1)
      = (readTex [some 3, some 4] 0).map jsRound ∧
    ((Ramp.getColorValue (List.replicate 1024 (some (7 : ℚ))) (-1)).r = none ∨
     (Ramp.getColorValue (List.replicate 1024 (some (7 : ℚ))) (-1)).g = none ∨
     (Ramp.getColorValue (List.replicate 1024 (some (7 : ℚ))) (-1)).b = none ∨
     (Ramp.getColorValue (List.replicate 1024 (some (7 : ℚ))) (-1)).a = none) := by
  have h := ramp_out_of_range_asymmetry [some 3, some 4]
    (List.replicate 1024 (some (7 : ℚ))) (-1) (by simp)
    (by rw [List.length_replicate])
    (by intro c hc; rw [List.eq_of_mem_replicate hc]; simp)
  refine ⟨⟨by norm_num, by rw [List.length_replicate]⟩, h.1 (by norm_num), ?_⟩
  refine h.2.2.mpr (Or.inl ?_)
  have : jsRound ((-1 : ℚ) * 255) = -255 := by norm_num [jsRound]
  omega

end CartoVL
